import Mathlib

/-!
Verification of `convert.py`, a tool that prepends an "Open in Colab"
badge cell to Jupyter notebook files.  The JSON documents handled by the
tool are modelled by the inductive type `Json`; the Python functions
`is_badge_line`, `clean_notebook_cells`, `create_badge_cell` and the
in-memory part of `update_notebook` are translated below.  Python
operations that raise uncaught exceptions are modelled with `Option`
(`none` means the Python code raises).
-/

/-- Whether the char list `n` is an initial segment of `h`. -/
def leadsWith : List Char → List Char → Bool
  | [], _ => true
  | _ :: _, [] => false
  | a :: as, b :: bs => a == b && leadsWith as bs

/-- Whether the char list `n` occurs contiguously inside `h`.
Models the Python substring test `n in h` for strings. -/
def hasSub (needle : List Char) : List Char → Bool
  | [] => leadsWith needle []
  | b :: bs => leadsWith needle (b :: bs) || hasSub needle bs

/-- Python: `def is_badge_line(line): return "colab-badge.svg" in line`. -/
def is_badge_line (line : String) : Bool :=
  hasSub "colab-badge.svg".data line.data

/-- The characters Python `str.splitlines` treats as line boundaries
(besides the two-character boundary CR LF handled separately). -/
def isLineBreakChar (c : Char) : Bool :=
  c == '\n' || c == '\r' || c == '\x0b' || c == '\x0c' ||
  c == '\x1c' || c == '\x1d' || c == '\x1e' || c == '\x85' ||
  c == '\u2028' || c == '\u2029'

/-- Core of Python `str.splitlines(keepends=True)` over char lists;
`acc` holds the current line read so far, reversed. -/
def splitlinesAux (acc : List Char) : List Char → List (List Char)
  | [] => if acc.isEmpty then [] else [acc.reverse]
  | '\r' :: '\n' :: rest => (acc.reverse ++ ['\r', '\n']) :: splitlinesAux [] rest
  | c :: rest =>
    if isLineBreakChar c then (acc.reverse ++ [c]) :: splitlinesAux [] rest
    else splitlinesAux (c :: acc) rest

/-- Python `s.splitlines(keepends=True)`. -/
def splitlinesKeepends (s : String) : List String :=
  (splitlinesAux [] s.data).map fun l => ⟨l⟩

/-- JSON values, as produced by Python `json.load`.  Objects are ordered
key/value lists (Python dicts preserve insertion order and have no
duplicate keys). -/
inductive Json where
  | null : Json
  | bool (b : Bool) : Json
  | num (n : Int) : Json
  | str (s : String) : Json
  | arr (elems : List Json) : Json
  | obj (fields : List (String × Json)) : Json

/-- First-match association-list lookup; models Python `d.get(k)` /
`d[k]` for dicts (which have unique keys). -/
def lookupField : List (String × Json) → String → Option Json
  | [], _ => none
  | (k, v) :: rest, key => if k == key then some v else lookupField rest key

/-- Models Python `d[k] = v` on a dict: replace the value in place if the
key is present (keeping its position), otherwise append the new key at
the end. -/
def setFieldAux : List (String × Json) → String → Json → List (String × Json)
  | [], key, v => [(key, v)]
  | (k, w) :: rest, key, v =>
    if k == key then (key, v) :: rest else (k, w) :: setFieldAux rest key v

/-- Python `d.get(k)` on a document: `none` when the key is missing or
when `d` is not an object. -/
def Json.get : Json → String → Option Json
  | .obj fs, k => lookupField fs k
  | _, _ => none

/-- Python `"colab-badge.svg" in line` applied to an arbitrary JSON value
`line`: substring test on strings, element membership on lists, key
membership on dicts; `none` models the `TypeError` Python raises on
numbers, booleans and `None`. -/
def pyInBadge : Json → Option Bool
  | .str s => some (is_badge_line s)
  | .arr l =>
    some (l.any fun j => match j with | .str s => s == "colab-badge.svg" | _ => false)
  | .obj fs => some ((fs.map Prod.fst).contains "colab-badge.svg")
  | _ => none

/-- The normalisation step of `clean_notebook_cells`: a string source is
split into lines with `splitlines(keepends=True)`; a list is used as is;
iterating a dict yields its keys; iterating a number, boolean or `None`
raises (`none`). -/
def sourceLines : Json → Option (List Json)
  | .str s => some ((splitlinesKeepends s).map Json.str)
  | .arr l => some l
  | .obj fs => some (fs.map fun kv => Json.str kv.1)
  | _ => none

/-- Python `[line for line in source if not is_badge_line(line)]`:
keeps the elements on which `pyInBadge` is `false`; propagates the
`TypeError` (`none`) raised on a non-iterable-test element. -/
def filterLines : List Json → Option (List Json)
  | [] => some []
  | j :: rest =>
    match pyInBadge j with
    | none => none
    | some b =>
      match filterLines rest with
      | none => none
      | some r => if b then some r else some (j :: r)

/-- Python `cell.get("cell_type") != "markdown"`, negated: true exactly
when the value is the string `"markdown"` (any other value, or a missing
key, compares unequal to the string in Python). -/
def isMarkdownType : Option Json → Bool
  | some (.str s) => s == "markdown"
  | _ => false

/-- The body of the `for cell in cells` loop of `clean_notebook_cells`:
returns the cells this cell contributes to `cleaned_cells` (one or zero),
`none` when the Python body raises.  A non-dict cell raises at
`cell.get("cell_type")`. -/
def cleanCell (cell : Json) : Option (List Json) :=
  match cell with
  | .obj fs =>
    if !isMarkdownType (lookupField fs "cell_type") then some [cell]
    else
      match sourceLines ((lookupField fs "source").getD (.arr [])) with
      | none => none
      | some lines =>
        match filterLines lines with
        | none => none
        | some new_source =>
          let was_badge_only :=
            decide (0 < lines.length) && decide (new_source.length = 0) &&
              decide (lines.length ≠ new_source.length)
          if was_badge_only then some []
          else some [Json.obj (setFieldAux fs "source" (.arr new_source))]
  | _ => none

/-- Python `clean_notebook_cells(cells)` over the list of cells. -/
def clean_notebook_cells : List Json → Option (List Json)
  | [] => some []
  | cell :: rest =>
    match cleanCell cell with
    | none => none
    | some here =>
      match clean_notebook_cells rest with
      | none => none
      | some there => some (here ++ there)

/-- The characters `urllib.parse.quote` never escapes (its always-safe
set: ASCII letters, digits, underscore, dot, dash, tilde); with the
`safe` parameter given as the empty string nothing else is kept. -/
def isAlwaysSafe (c : Char) : Bool :=
  ('A' ≤ c && c ≤ 'Z') || ('a' ≤ c && c ≤ 'z') || ('0' ≤ c && c ≤ '9') ||
  c == '_' || c == '.' || c == '-' || c == '~'

/-- Uppercase hexadecimal digit for a value below 16, as Python emits. -/
def hexDigit (n : Nat) : Char :=
  if n < 10 then Char.ofNat (48 + n) else Char.ofNat (55 + n)

/-- UTF-8 encoding of one character, as byte values (quote encodes the
string to UTF-8 before escaping). -/
def utf8Bytes (c : Char) : List Nat :=
  let n := c.toNat
  if n < 0x80 then [n]
  else if n < 0x800 then [0xC0 + n / 64, 0x80 + n % 64]
  else if n < 0x10000 then [0xE0 + n / 4096, 0x80 + n / 64 % 64, 0x80 + n % 64]
  else [0xF0 + n / 262144, 0x80 + n / 4096 % 64, 0x80 + n / 64 % 64, 0x80 + n % 64]

/-- Percent escape of one byte, with uppercase hex digits. -/
def pctByte (b : Nat) : List Char :=
  ['%', hexDigit (b / 16), hexDigit (b % 16)]

/-- One character of `urllib.parse.quote(s, safe=the empty string)`:
kept verbatim when always-safe, otherwise every UTF-8 byte is percent
escaped. -/
def quoteChar (c : Char) : List Char :=
  if isAlwaysSafe c then [c] else ((utf8Bytes c).map pctByte).flatten

/-- Python `urllib.parse.quote(s, safe=the empty string)`, used on the
branch name. -/
def urlQuote (s : String) : String :=
  ⟨(s.data.map quoteChar).flatten⟩

/-- The fixed badge image URL of `create_badge_cell`. -/
def image_url : String := "https://colab.research.google.com/assets/colab-badge.svg"

/-- The Colab target URL built by `create_badge_cell`. -/
def colab_url (repo branch file_path : String) : String :=
  "https://colab.research.google.com/github/" ++ repo ++ "/blob/" ++
    urlQuote branch ++ "/" ++ file_path

/-- The single-line badge HTML string of `create_badge_cell`. -/
def badge_html (repo branch file_path : String) : String :=
  "<a href=\"" ++ colab_url repo branch file_path ++
    "\" target=\"_parent\"><img src=\"" ++ image_url ++
    "\" alt=\"Open In Colab\"/></a>"

/-- Python `create_badge_cell(repo, branch, file_path)`. -/
def create_badge_cell (repo branch file_path : String) : Json :=
  .obj [("cell_type", .str "markdown"), ("metadata", .obj []),
        ("source", .arr [.str (badge_html repo branch file_path)])]

/-- The cells preparation step of `update_notebook`: clean the cells if
the `cells` key is present, otherwise start from an empty list.  A
`cells` value that is not a list raises (`none`) unless it is an empty
string or empty dict, whose Python iteration yields no cells (iterating
a non-empty string or dict yields strings, on which `cell.get`
raises). -/
def cleanedCellsOf (fs : List (String × Json)) : Option (List Json) :=
  match lookupField fs "cells" with
  | some (.arr cs) => clean_notebook_cells cs
  | some (.str s) => if s.data.isEmpty then some [] else none
  | some (.obj gs) => if gs.isEmpty then some [] else none
  | some _ => none
  | none => some []

/-- The insertion step of `update_notebook`: the fresh badge cell goes to
position 0 of the cleaned cells, and the `cells` entry of the document
is replaced (or created) accordingly. -/
def update_notebook_data (repo branch file_path : String) (data : Json) : Option Json :=
  match data with
  | .obj fs =>
    match cleanedCellsOf fs with
    | none => none
    | some cells =>
      some (Json.obj (setFieldAux fs "cells"
        (.arr (create_badge_cell repo branch file_path :: cells))))
  | _ => none

/-- A markdown cell one of whose lines the badge detector matches; used
to state that cleaning leaves no badge line behind.  Lines are the
string entries of a list source, or the split lines of a string
source. -/
def cellHasBadgeLine : Json → Bool
  | .obj fs =>
    isMarkdownType (lookupField fs "cell_type") &&
      (match lookupField fs "source" with
       | some (.arr l) =>
         l.any fun j => match j with | .str s => is_badge_line s | _ => false
       | some (.str s) => (splitlinesKeepends s).any is_badge_line
       | _ => false)
  | _ => false

/-- The observable file system, for the orchestration layer: each
existing path maps to `Except String Json`, where `.error e` means the
file exists but reading or parsing it raises an exception whose text is
`e`; a path absent from the list does not exist. -/
def lookupFile : List (String × Except String Json) → String → Option (Except String Json)
  | [], _ => none
  | (p, c) :: rest, path => if p == path then some c else lookupFile rest path

/-- Overwriting one file of the file system. -/
def setFile : List (String × Except String Json) → String → Except String Json →
    List (String × Except String Json)
  | [], path, c => [(path, c)]
  | (p, d) :: rest, path, c =>
    if p == path then (path, c) :: rest else (p, d) :: setFile rest path c

/-- Python `update_notebook(file_path, repo, branch)` including its I/O:
prints a progress line, reads and parses the file (a read or parse
failure is caught, reported with the path and cause, and leaves the file
unchanged), transforms the document in memory and writes the result
back.  Returns the new file system and the printed lines; `none` models
an uncaught exception escaping the function (the in-memory
transformation sits outside both `try` blocks). -/
def update_notebook (fs : List (String × Except String Json))
    (file_path repo branch : String) :
    Option (List (String × Except String Json) × List String) :=
  let progress := "Updating badge for " ++ file_path ++ " -> " ++ branch
  match lookupFile fs file_path with
  | none =>
    some (fs, [progress, "Error reading " ++ file_path ++ ": No such file or directory"])
  | some (.error e) =>
    some (fs, [progress, "Error reading " ++ file_path ++ ": " ++ e])
  | some (.ok data) =>
    match update_notebook_data repo branch file_path data with
    | none => none
    | some out => some (setFile fs file_path (.ok out), [progress])

/-- The body of the `for file_path in args.files` loop of `main`: a
nonexistent path is reported and skipped, otherwise `update_notebook`
runs on it. -/
def processFile (repo branch : String) (fs : List (String × Except String Json))
    (file_path : String) :
    Option (List (String × Except String Json) × List String) :=
  match lookupFile fs file_path with
  | none => some (fs, ["File not found: " ++ file_path])
  | some _ => update_notebook fs file_path repo branch

/-- The loop of `main` over the command-line file list; `none` models an
uncaught exception aborting the process. -/
def mainLoop (repo branch : String) (fs : List (String × Except String Json)) :
    List String → Option (List (String × Except String Json) × List String)
  | [] => some (fs, [])
  | p :: rest =>
    match processFile repo branch fs p with
    | none => none
    | some (fs1, out1) =>
      match mainLoop repo branch fs1 rest with
      | none => none
      | some (fs2, out2) => some (fs2, out1 ++ out2)

/-- The characters that can appear in the output of quoting: safe
characters, the percent sign, and uppercase hex digits. -/
def isQuoteOutputChar (c : Char) : Bool :=
  isAlwaysSafe c || c == '%' || ('0' ≤ c && c ≤ '9') || ('A' ≤ c && c ≤ 'F')

/-! Section: Lemmas about substring detection -/

theorem hasSub_append_right (n xs ys : List Char) (h : hasSub n ys = true) :
    hasSub n (xs ++ ys) = true := by
  induction xs with
  | nil => simpa using h
  | cons x xs ih => simp [hasSub, ih]

theorem leadsWith_append (n s ys : List Char) (h : leadsWith n s = true) :
    leadsWith n (s ++ ys) = true := by
  induction n generalizing s with
  | nil => simp [leadsWith]
  | cons a as ih =>
    cases s with
    | nil => simp [leadsWith] at h
    | cons b bs =>
      simp only [leadsWith, Bool.and_eq_true] at h ⊢
      exact ⟨h.1, ih bs h.2⟩

theorem hasSub_append_left (n xs ys : List Char) (h : hasSub n xs = true) :
    hasSub n (xs ++ ys) = true := by
  induction xs with
  | nil =>
    cases n with
    | nil =>
      cases ys with
      | nil => simpa using h
      | cons y ys => simp [hasSub, leadsWith]
    | cons a as => simp [hasSub, leadsWith] at h
  | cons b bs ih =>
    simp only [List.cons_append, hasSub, Bool.or_eq_true] at h ⊢
    rcases h with h1 | h1
    · exact Or.inl (leadsWith_append _ _ ys h1)
    · exact Or.inr (ih h1)

theorem is_badge_line_append_right (x y : String) (h : is_badge_line y = true) :
    is_badge_line (x ++ y) = true := by
  simpa [is_badge_line, String.data_append] using
    hasSub_append_right "colab-badge.svg".data x.data y.data h

theorem is_badge_line_append_left (x y : String) (h : is_badge_line x = true) :
    is_badge_line (x ++ y) = true := by
  simpa [is_badge_line, String.data_append] using
    hasSub_append_left "colab-badge.svg".data x.data y.data h

/-- Any badge cell the builder produces is itself matched by the badge
detector, whatever the repository, branch and path. -/
theorem is_badge_line_badge_html (r b p : String) :
    is_badge_line (badge_html r b p) = true := by
  unfold badge_html
  apply is_badge_line_append_left
  apply is_badge_line_append_right
  decide

/-! Section: Lemmas about dict lookup and update -/

theorem lookupField_set_self (fs : List (String × Json)) (k : String) (v : Json) :
    lookupField (setFieldAux fs k v) k = some v := by
  induction fs with
  | nil => simp [setFieldAux, lookupField]
  | cons kv rest ih =>
    obtain ⟨k1, v1⟩ := kv
    by_cases h : k1 = k
    · simp [setFieldAux, lookupField, h]
    · simp [setFieldAux, lookupField, h, ih]

theorem lookupField_set_other (fs : List (String × Json)) (k k2 : String) (v : Json)
    (h : k2 ≠ k) :
    lookupField (setFieldAux fs k v) k2 = lookupField fs k2 := by
  induction fs with
  | nil => simp [setFieldAux, lookupField, Ne.symm h]
  | cons kv rest ih =>
    obtain ⟨k1, v1⟩ := kv
    by_cases h1 : k1 = k
    · subst h1
      simp [setFieldAux, lookupField, Ne.symm h]
    · simp [setFieldAux, lookupField, h1, ih]

theorem setFieldAux_setFieldAux (fs : List (String × Json)) (k : String) (v w : Json) :
    setFieldAux (setFieldAux fs k v) k w = setFieldAux fs k w := by
  induction fs with
  | nil => simp [setFieldAux]
  | cons kv rest ih =>
    obtain ⟨k1, v1⟩ := kv
    by_cases h1 : k1 = k
    · simp [setFieldAux, h1]
    · simp [setFieldAux, h1, ih]

theorem setFieldAux_of_lookup (fs : List (String × Json)) (k : String) (v : Json)
    (h : lookupField fs k = some v) :
    setFieldAux fs k v = fs := by
  induction fs with
  | nil => simp [lookupField] at h
  | cons kv rest ih =>
    obtain ⟨k1, v1⟩ := kv
    by_cases h1 : k1 = k
    · subst h1
      simp [lookupField] at h
      simp [setFieldAux, h]
    · simp [lookupField, h1] at h
      simp [setFieldAux, h1, ih h]

/-! Section: Lemmas about the line filter -/

theorem filterLines_mem (l r : List Json) (h : filterLines l = some r) :
    ∀ j ∈ r, pyInBadge j = some false := by
  induction l generalizing r with
  | nil =>
    simp [filterLines] at h
    subst h; simp
  | cons j rest ih =>
    simp only [filterLines] at h
    cases hb : pyInBadge j <;> rw [hb] at h
    · simp at h
    case some b =>
      cases hr : filterLines rest <;> rw [hr] at h
      · simp at h
      case some r2 =>
        cases b with
        | true =>
          simp at h; subst h
          exact ih r2 hr
        | false =>
          simp at h; subst h
          intro x hx
          rcases List.mem_cons.mp hx with h1 | h1
          · subst h1; exact hb
          · exact ih r2 hr x h1

theorem filterLines_self (l : List Json) (h : ∀ j ∈ l, pyInBadge j = some false) :
    filterLines l = some l := by
  induction l with
  | nil => simp [filterLines]
  | cons j rest ih =>
    have hj := h j (by simp)
    have hrest := ih fun x hx => h x (by simp [hx])
    simp [filterLines, hj, hrest]

theorem filterLines_map_str (l : List String) :
    filterLines (l.map Json.str) =
      some ((l.filter fun s => !is_badge_line s).map Json.str) := by
  induction l with
  | nil => simp [filterLines]
  | cons s rest ih =>
    by_cases hb : is_badge_line s
    · simp [filterLines, pyInBadge, hb, ih, List.filter_cons]
    · simp [filterLines, pyInBadge, hb, ih, List.filter_cons]

/-! Section: Lemmas about the cell cleaner -/

theorem cleanCell_pass (fs : List (String × Json))
    (h : isMarkdownType (lookupField fs "cell_type") = false) :
    cleanCell (.obj fs) = some [.obj fs] := by
  simp [cleanCell, h]

theorem clean_cons_pass (fs : List (String × Json)) (rest : List Json)
    (h : isMarkdownType (lookupField fs "cell_type") = false) :
    clean_notebook_cells (.obj fs :: rest) =
      (clean_notebook_cells rest).map fun r => .obj fs :: r := by
  simp only [clean_notebook_cells, cleanCell_pass fs h]
  cases clean_notebook_cells rest <;> simp

theorem cleanCell_markdown (fs : List (String × Json)) (lines new_source : List Json)
    (hmt : isMarkdownType (lookupField fs "cell_type") = true)
    (hl : sourceLines ((lookupField fs "source").getD (.arr [])) = some lines)
    (hf : filterLines lines = some new_source) :
    cleanCell (.obj fs) =
      if (decide (0 < lines.length) && decide (new_source.length = 0) &&
          decide (lines.length ≠ new_source.length)) = true
      then some []
      else some [Json.obj (setFieldAux fs "source" (.arr new_source))] := by
  simp [cleanCell, hmt, hl, hf]

theorem no_badge_entry (ns : List Json) (h : ∀ j ∈ ns, pyInBadge j = some false) :
    (ns.any fun j => match j with | .str s => is_badge_line s | _ => false) = false := by
  rw [List.any_eq_false]
  intro j hj
  cases j <;> simp
  case str s =>
    have hs := h (.str s) hj
    simp [pyInBadge] at hs
    simp [hs]

theorem cleanCell_markdown_none_src (fs : List (String × Json))
    (hmt : isMarkdownType (lookupField fs "cell_type") = true)
    (hl : sourceLines ((lookupField fs "source").getD (.arr [])) = none) :
    cleanCell (.obj fs) = none := by
  simp [cleanCell, hmt, hl]

theorem cleanCell_markdown_none_filter (fs : List (String × Json)) (lines : List Json)
    (hmt : isMarkdownType (lookupField fs "cell_type") = true)
    (hl : sourceLines ((lookupField fs "source").getD (.arr [])) = some lines)
    (hf : filterLines lines = none) :
    cleanCell (.obj fs) = none := by
  simp [cleanCell, hmt, hl, hf]

theorem cleanCell_good (c : Json) (out : List Json) (h : cleanCell c = some out) :
    ∀ c2 ∈ out, cleanCell c2 = some [c2] ∧ cellHasBadgeLine c2 = false := by
  cases c with
  | null => simp [cleanCell] at h
  | bool b => simp [cleanCell] at h
  | num n => simp [cleanCell] at h
  | str s => simp [cleanCell] at h
  | arr l => simp [cleanCell] at h
  | obj fs =>
    cases hmt : isMarkdownType (lookupField fs "cell_type") with
    | false =>
      rw [cleanCell_pass fs hmt] at h
      simp at h
      subst h
      intro c2 hc2
      simp at hc2
      subst hc2
      exact ⟨cleanCell_pass fs hmt, by simp [cellHasBadgeLine, hmt]⟩
    | true =>
      cases hl : sourceLines ((lookupField fs "source").getD (.arr [])) with
      | none =>
        rw [cleanCell_markdown_none_src fs hmt hl] at h
        simp at h
      | some lines =>
        cases hf : filterLines lines with
        | none =>
          rw [cleanCell_markdown_none_filter fs lines hmt hl hf] at h
          simp at h
        | some ns =>
          rw [cleanCell_markdown fs lines ns hmt hl hf] at h
          by_cases hbo : (decide (0 < lines.length) && decide (ns.length = 0) &&
              decide (lines.length ≠ ns.length)) = true
          · rw [if_pos hbo] at h
            simp at h
            subst h
            intro c2 hc2
            simp at hc2
          · rw [if_neg hbo] at h
            simp at h
            subst h
            intro c2 hc2
            simp at hc2
            subst hc2
            have hmem := filterLines_mem lines ns hf
            have hmt2 : isMarkdownType
                (lookupField (setFieldAux fs "source" (.arr ns)) "cell_type") = true := by
              rw [lookupField_set_other fs "source" "cell_type" _ (by decide)]
              exact hmt
            have hsrc2 : lookupField (setFieldAux fs "source" (.arr ns)) "source" =
                some (.arr ns) := lookupField_set_self fs "source" (.arr ns)
            constructor
            · rw [cleanCell_markdown (setFieldAux fs "source" (.arr ns)) ns ns hmt2
                (by rw [hsrc2]; rfl) (filterLines_self ns hmem)]
              have hno : (decide (0 < ns.length) && decide (ns.length = 0) &&
                  decide (ns.length ≠ ns.length)) = false := by simp
              rw [hno]
              simp [setFieldAux_setFieldAux]
            · simp only [cellHasBadgeLine, hmt2, hsrc2, Bool.true_and]
              exact no_badge_entry ns hmem

/-! Section: Lemmas about the list cleaner -/

theorem clean_good (cs out : List Json) (h : clean_notebook_cells cs = some out) :
    ∀ c2 ∈ out, cleanCell c2 = some [c2] ∧ cellHasBadgeLine c2 = false := by
  induction cs generalizing out with
  | nil =>
    simp [clean_notebook_cells] at h
    subst h; simp
  | cons c rest ih =>
    simp only [clean_notebook_cells] at h
    cases hc : cleanCell c <;> rw [hc] at h
    · simp at h
    case some here =>
      cases hr : clean_notebook_cells rest <;> rw [hr] at h
      · simp at h
      case some there =>
        simp at h
        subst h
        intro c2 hc2
        rcases List.mem_append.mp hc2 with h1 | h1
        · exact cleanCell_good c here hc c2 h1
        · exact ih there hr c2 h1

theorem clean_of_clean_eq_self (cs : List Json) (h : ∀ c ∈ cs, cleanCell c = some [c]) :
    clean_notebook_cells cs = some cs := by
  induction cs with
  | nil => rfl
  | cons c rest ih =>
    have hc := h c (by simp)
    have hr := ih fun x hx => h x (by simp [hx])
    simp [clean_notebook_cells, hc, hr]

/-- Cleaning is idempotent on cell lists. -/
theorem clean_idem (cs out : List Json) (h : clean_notebook_cells cs = some out) :
    clean_notebook_cells out = some out :=
  clean_of_clean_eq_self out fun c hc => (clean_good cs out h c hc).1

/-- The badge cell the builder makes is always dropped by the cleaner. -/
theorem cleanCell_badge (r b p : String) :
    cleanCell (create_badge_cell r b p) = some [] := by
  have hb := is_badge_line_badge_html r b p
  simp [cleanCell, create_badge_cell, lookupField, isMarkdownType, sourceLines,
    filterLines, pyInBadge, hb]

/-! Section: Lemmas about the updater -/

theorem update_some (r b p : String) (fs : List (String × Json)) (out : Json)
    (h : update_notebook_data r b p (.obj fs) = some out) :
    ∃ cells, cleanedCellsOf fs = some cells ∧
      out = .obj (setFieldAux fs "cells" (.arr (create_badge_cell r b p :: cells))) := by
  cases hc : cleanedCellsOf fs with
  | none => simp [update_notebook_data, hc] at h
  | some cells =>
    simp [update_notebook_data, hc] at h
    exact ⟨cells, rfl, h.symm⟩

theorem update_obj (r b p : String) (data out : Json)
    (h : update_notebook_data r b p data = some out) :
    ∃ fs, data = .obj fs := by
  cases data with
  | obj fs => exact ⟨fs, rfl⟩
  | null => simp [update_notebook_data] at h
  | bool b2 => simp [update_notebook_data] at h
  | num n => simp [update_notebook_data] at h
  | str s => simp [update_notebook_data] at h
  | arr l => simp [update_notebook_data] at h

theorem cleanedCellsOf_good (fs : List (String × Json)) (cells : List Json)
    (h : cleanedCellsOf fs = some cells) :
    ∀ c ∈ cells, cleanCell c = some [c] ∧ cellHasBadgeLine c = false := by
  unfold cleanedCellsOf at h
  cases hcv : lookupField fs "cells" <;> rw [hcv] at h
  · simp at h; subst h; simp
  case some v =>
    cases v with
    | arr cs => exact clean_good cs cells (by simpa using h)
    | str s =>
      by_cases he : s.data.isEmpty
      · simp [he] at h; subst h; simp
      · simp [he] at h
    | obj gs =>
      by_cases he : gs.isEmpty
      · simp [he] at h; subst h; simp
      · simp [he] at h
    | null => simp at h
    | bool b => simp at h
    | num n => simp at h

theorem cleanedCellsOf_set_badge (r b p : String) (fs : List (String × Json))
    (cells : List Json) (hgood : ∀ c ∈ cells, cleanCell c = some [c]) :
    cleanedCellsOf (setFieldAux fs "cells" (.arr (create_badge_cell r b p :: cells))) =
      some cells := by
  unfold cleanedCellsOf
  rw [lookupField_set_self]
  simp [clean_notebook_cells, cleanCell_badge r b p, clean_of_clean_eq_self cells hgood]

/-! Section: Lemmas about URL quoting -/

theorem hexDigit_quoteOutput : ∀ n, n < 16 → isQuoteOutputChar (hexDigit n) = true := by
  decide

theorem char_toNat_lt (c : Char) : c.toNat < 1114112 := by
  have h := c.valid
  unfold UInt32.isValidChar Nat.isValidChar at h
  have he : c.toNat = c.val.toNat := rfl
  rw [he]
  rcases h with h | ⟨h1, h2⟩ <;> omega

theorem utf8Bytes_lt (c : Char) : ∀ b ∈ utf8Bytes c, b < 256 := by
  have hc : c.toNat < 1114112 := char_toNat_lt c
  intro b hb
  simp only [utf8Bytes] at hb
  split at hb
  · simp at hb; omega
  · split at hb
    · simp at hb; omega
    · split at hb
      · simp at hb; omega
      · simp at hb; omega

theorem pctByte_quoteOutput (b : Nat) (h : b < 256) :
    ∀ ch ∈ pctByte b, isQuoteOutputChar ch = true := by
  intro ch hch
  simp [pctByte] at hch
  rcases hch with h1 | h1 | h1 <;> subst h1
  · decide
  · exact hexDigit_quoteOutput (b / 16) (by omega)
  · exact hexDigit_quoteOutput (b % 16) (by omega)

theorem quoteChar_quoteOutput (c : Char) :
    ∀ ch ∈ quoteChar c, isQuoteOutputChar ch = true := by
  intro ch hch
  unfold quoteChar at hch
  by_cases hs : isAlwaysSafe c
  · simp [hs] at hch
    subst hch
    simp [isQuoteOutputChar, hs]
  · simp [hs, List.mem_flatten, List.mem_map] at hch
    obtain ⟨b, hb, hchb⟩ := hch
    exact pctByte_quoteOutput b (utf8Bytes_lt c b hb) ch hchb

/-- Every character of a quoted string is a safe character, a percent
sign, or an uppercase hex digit; in particular no slash and no space
survives quoting. -/
theorem urlQuote_chars (s : String) :
    ∀ ch ∈ (urlQuote s).data, isQuoteOutputChar ch = true := by
  intro ch hch
  have hch2 : ch ∈ (s.data.map quoteChar).flatten := hch
  rw [List.mem_flatten] at hch2
  obtain ⟨l, hl, hchl⟩ := hch2
  rw [List.mem_map] at hl
  obtain ⟨c, _, rfl⟩ := hl
  exact quoteChar_quoteOutput c ch hchl

/-- The badge HTML line always ends in the closing anchor tag, so it
never carries a trailing newline. -/
theorem badge_html_getLast (r b p : String) :
    (badge_html r b p).data.getLast? = some '>' := by
  unfold badge_html
  rw [String.data_append]
  rw [List.getLast?_append_of_ne_nil _ (by decide)]
  decide

/-! Section: Cons-level corollaries of the cleaner -/

theorem clean_cons_drop (c : Json) (rest : List Json) (h : cleanCell c = some []) :
    clean_notebook_cells (c :: rest) = clean_notebook_cells rest := by
  simp only [clean_notebook_cells, h]
  cases clean_notebook_cells rest <;> simp

theorem clean_cons_keep (c c2 : Json) (rest : List Json) (h : cleanCell c = some [c2]) :
    clean_notebook_cells (c :: rest) =
      (clean_notebook_cells rest).map fun rs => c2 :: rs := by
  simp only [clean_notebook_cells, h]
  cases clean_notebook_cells rest <;> simp

/-! Section: The claims -/

/-- Claim C1: for every notebook document and fixed repository, branch
and file path, applying the in-memory update transformation (clean
cells, build badge cell, insert at index 0) twice in succession yields
the same document — hence the identical cells sequence — as applying it
once; no duplicate or stacked badge cells appear. -/
theorem claim_C1 (r b p : String) (data out : Json)
    (h : update_notebook_data r b p data = some out) :
    update_notebook_data r b p out = some out := by
  obtain ⟨fs, rfl⟩ := update_obj r b p data out h
  obtain ⟨cells, hc, rfl⟩ := update_some r b p fs out h
  have hgood : ∀ c ∈ cells, cleanCell c = some [c] :=
    fun c hc2 => (cleanedCellsOf_good fs cells hc c hc2).1
  simp [update_notebook_data, cleanedCellsOf_set_badge r b p fs cells hgood,
    setFieldAux_setFieldAux]

theorem claim_C1_witness :
    update_notebook_data "o/r" "main" "nb.ipynb"
        (.obj [("cells", .arr [create_badge_cell "o/r" "main" "nb.ipynb",
          .obj [("cell_type", .str "markdown"), ("source", .arr [.str "# Title\n"])]])]) =
      some (.obj [("cells", .arr [create_badge_cell "o/r" "main" "nb.ipynb",
        .obj [("cell_type", .str "markdown"), ("source", .arr [.str "# Title\n"])]])]) :=
  claim_C1 "o/r" "main" "nb.ipynb"
    (.obj [("cells", .arr [.obj [("cell_type", .str "markdown"),
      ("source", .arr [.str "# Title\n",
        .str "<img src=https://colab.research.google.com/assets/colab-badge.svg>"])]])])
    _ (by rfl)

/-- Claim C2: after the update, the cell at index 0 is the freshly built
badge cell for the given repository, branch and file path; every cell of
the cleaned sequence is shifted right by exactly one position (the
survivor of the prior index 0, if any, sits at index 1); and no markdown
cell other than the new badge cell contains a line matching the badge
detector. -/
theorem claim_C2 (r b p : String) (data out : Json)
    (h : update_notebook_data r b p data = some out) :
    ∃ cleaned,
      Json.get out "cells" = some (.arr (create_badge_cell r b p :: cleaned)) ∧
      (∀ c ∈ cleaned, cellHasBadgeLine c = false) ∧
      (∀ cs, Json.get data "cells" = some (.arr cs) →
        clean_notebook_cells cs = some cleaned) ∧
      (create_badge_cell r b p :: cleaned)[0]? = some (create_badge_cell r b p) ∧
      (∀ i, (create_badge_cell r b p :: cleaned)[i + 1]? = cleaned[i]?) := by
  obtain ⟨fs, rfl⟩ := update_obj r b p data out h
  obtain ⟨cells, hc, rfl⟩ := update_some r b p fs out h
  refine ⟨cells, ?_, ?_, ?_, by simp, fun i => by simp⟩
  · simp [Json.get, lookupField_set_self]
  · exact fun c hcm => (cleanedCellsOf_good fs cells hc c hcm).2
  · intro cs hcs
    simp only [Json.get] at hcs
    unfold cleanedCellsOf at hc
    rw [hcs] at hc
    exact hc

theorem claim_C2_witness :
    ∃ cleaned,
      Json.get (Json.obj [("cells",
          .arr [create_badge_cell "o/r" "main" "nb.ipynb"])]) "cells" =
        some (.arr (create_badge_cell "o/r" "main" "nb.ipynb" :: cleaned)) ∧
      (∀ c ∈ cleaned, cellHasBadgeLine c = false) ∧
      (∀ cs, Json.get (Json.obj []) "cells" = some (.arr cs) →
        clean_notebook_cells cs = some cleaned) ∧
      (create_badge_cell "o/r" "main" "nb.ipynb" :: cleaned)[0]? =
        some (create_badge_cell "o/r" "main" "nb.ipynb") ∧
      (∀ i, (create_badge_cell "o/r" "main" "nb.ipynb" :: cleaned)[i + 1]? =
        cleaned[i]?) :=
  claim_C2 "o/r" "main" "nb.ipynb" (Json.obj []) _ (by rfl)

/-- Claim C3: a markdown cell whose normalized source lines are non-empty
and all match the badge detector is dropped whole from the cleaned
sequence; a markdown cell with at least one badge line and at least one
non-badge line is kept, its source replaced by exactly the non-badge
lines in their original order. -/
theorem claim_C3 (fs : List (String × Json)) (src : Json) (lines : List String)
    (rest : List Json)
    (hmt : isMarkdownType (lookupField fs "cell_type") = true)
    (hsrc : lookupField fs "source" = some src)
    (hlines : sourceLines src = some (lines.map Json.str)) :
    (lines ≠ [] → (∀ s ∈ lines, is_badge_line s = true) →
      clean_notebook_cells (.obj fs :: rest) = clean_notebook_cells rest) ∧
    ((∃ s ∈ lines, is_badge_line s = true) → (∃ s ∈ lines, is_badge_line s = false) →
      clean_notebook_cells (.obj fs :: rest) =
        (clean_notebook_cells rest).map
          fun rs => .obj (setFieldAux fs "source"
            (.arr ((lines.filter fun s => !is_badge_line s).map Json.str))) :: rs) := by
  have hsl : sourceLines ((lookupField fs "source").getD (.arr [])) =
      some (lines.map Json.str) := by rw [hsrc]; exact hlines
  have hcc := cleanCell_markdown fs (lines.map Json.str)
    ((lines.filter fun s => !is_badge_line s).map Json.str) hmt hsl
    (filterLines_map_str lines)
  constructor
  · intro hne hall
    have hlen : 0 < lines.length := List.length_pos.mpr hne
    have hfil : lines.filter (fun s => !is_badge_line s) = [] := by
      rw [List.filter_eq_nil_iff]
      intro s hs
      simp [hall s hs]
    rw [hfil] at hcc
    have hcond : (decide (0 < (lines.map Json.str).length) &&
        decide ((List.map Json.str []).length = 0) &&
        decide ((lines.map Json.str).length ≠ (List.map Json.str []).length)) = true := by
      simp [hne, hlen]
    rw [hcond] at hcc
    simp at hcc
    exact clean_cons_drop _ rest hcc
  · intro _hbadge hnon
    obtain ⟨s0, hs0, hbs0⟩ := hnon
    have hmem : s0 ∈ lines.filter (fun s => !is_badge_line s) := by
      rw [List.mem_filter]
      exact ⟨hs0, by simp [hbs0]⟩
    have hffne : ((lines.filter fun s => !is_badge_line s).map Json.str).length ≠ 0 := by
      simp only [List.length_map]
      intro hzero
      rw [List.length_eq_zero.mp hzero] at hmem
      simp at hmem
    have hcond : (decide (0 < (lines.map Json.str).length) &&
        decide (((lines.filter fun s => !is_badge_line s).map Json.str).length = 0) &&
        decide ((lines.map Json.str).length ≠
          ((lines.filter fun s => !is_badge_line s).map Json.str).length)) = false := by
      rw [decide_eq_false hffne]
      simp
    rw [hcond] at hcc
    simp at hcc
    exact clean_cons_keep _ _ rest hcc

theorem claim_C3_witness :
    clean_notebook_cells [.obj [("cell_type", .str "markdown"),
        ("source", .arr [.str "# Title\n", .str "x colab-badge.svg x"])]] =
      some [.obj [("cell_type", .str "markdown"),
        ("source", .arr [.str "# Title\n"])]] := by
  have h := (claim_C3 [("cell_type", .str "markdown"),
      ("source", .arr [.str "# Title\n", .str "x colab-badge.svg x"])]
      (.arr [.str "# Title\n", .str "x colab-badge.svg x"])
      ["# Title\n", "x colab-badge.svg x"] [] (by rfl) (by rfl) (by rfl)).2
      ⟨"x colab-badge.svg x", by simp, by rfl⟩
      ⟨"# Title\n", by simp, by rfl⟩
  rw [h]
  rfl

/-- Claim C4: for every repository, branch and file path the builder
returns a markdown cell with empty metadata whose source is one string
with no trailing newline: an HTML anchor whose href interpolates the
repository and file path verbatim and the branch percent-encoded with
every unsafe character escaped — the slash becoming `%2F` and the space
percent-encoded. -/
theorem claim_C4 (repo branch file_path : String) :
    create_badge_cell repo branch file_path =
      .obj [("cell_type", .str "markdown"), ("metadata", .obj []),
        ("source", .arr [.str (badge_html repo branch file_path)])] ∧
    badge_html repo branch file_path =
      "<a href=\"" ++ colab_url repo branch file_path ++
        "\" target=\"_parent\"><img src=\"" ++ image_url ++
        "\" alt=\"Open In Colab\"/></a>" ∧
    colab_url repo branch file_path =
      "https://colab.research.google.com/github/" ++ repo ++ "/blob/" ++
        urlQuote branch ++ "/" ++ file_path ∧
    (∀ ch ∈ (urlQuote branch).data, isQuoteOutputChar ch = true) ∧
    '/' ∉ (urlQuote branch).data ∧
    ' ' ∉ (urlQuote branch).data ∧
    quoteChar '/' = ['%', '2', 'F'] ∧
    quoteChar ' ' = ['%', '2', '0'] ∧
    (badge_html repo branch file_path).data.getLast? = some '>' := by
  refine ⟨rfl, rfl, rfl, urlQuote_chars branch, ?_, ?_, by decide, by decide,
    badge_html_getLast repo branch file_path⟩
  · intro h
    exact absurd (urlQuote_chars branch '/' h) (by decide)
  · intro h
    exact absurd (urlQuote_chars branch ' ' h) (by decide)

theorem claim_C4_witness :
    urlQuote "feature/x y" = "feature%2Fx%20y" ∧
    colab_url "owner/repo" "feature/x y" "nb.ipynb" =
      "https://colab.research.google.com/github/owner/repo/blob/feature%2Fx%20y/nb.ipynb" ∧
    '/' ∉ (urlQuote "feature/x y").data :=
  ⟨by rfl, by rfl, (claim_C4 "owner/repo" "feature/x y" "nb.ipynb").2.2.2.2.1⟩

/-- Claim C5, counterexample: a markdown cell whose source is the empty
string is not returned unchanged — the cleaner rewrites its source to
the empty list. -/
theorem claim_C5_counterexample :
    clean_notebook_cells [.obj [("cell_type", .str "markdown"), ("source", .str "")]] ≠
      some [.obj [("cell_type", .str "markdown"), ("source", .str "")]] := by
  have h : clean_notebook_cells
      [.obj [("cell_type", .str "markdown"), ("source", .str "")]] =
      some [.obj [("cell_type", .str "markdown"), ("source", .arr [])]] := rfl
  rw [h]
  intro he
  simp at he

/-- Claim C5, as amended: a markdown cell whose source is an empty list,
an empty string, or absent is kept in the output sequence (never
dropped); its source is set to the normalized empty list — so a cell
whose source already was the empty list is literally unchanged, while an
empty-string source is rewritten to the list form and a missing source
key is added — and all other fields are untouched. -/
theorem claim_C5_amended (fs : List (String × Json)) (rest : List Json)
    (hmt : isMarkdownType (lookupField fs "cell_type") = true)
    (hsrc : lookupField fs "source" = none ∨
      lookupField fs "source" = some (.str "") ∨
      lookupField fs "source" = some (.arr [])) :
    clean_notebook_cells (.obj fs :: rest) =
      (clean_notebook_cells rest).map
        (fun rs => .obj (setFieldAux fs "source" (.arr [])) :: rs) ∧
    (lookupField fs "source" = some (.arr []) →
      Json.obj (setFieldAux fs "source" (.arr [])) = .obj fs) := by
  constructor
  · have hsl : sourceLines ((lookupField fs "source").getD (.arr [])) = some [] := by
      rcases hsrc with h | h | h <;> rw [h] <;> rfl
    have hcc := cleanCell_markdown fs [] [] hmt hsl (by rfl)
    simp only [List.length_nil] at hcc
    norm_num at hcc
    exact clean_cons_keep _ _ rest hcc
  · intro h
    rw [setFieldAux_of_lookup fs "source" _ h]

theorem claim_C5_amended_witness :
    clean_notebook_cells [.obj [("cell_type", .str "markdown"), ("source", .str "")]] =
      some [.obj [("cell_type", .str "markdown"), ("source", .arr [])]] := by
  rw [(claim_C5_amended [("cell_type", .str "markdown"), ("source", .str "")] []
    (by rfl) (Or.inr (Or.inl rfl))).1]
  rfl

/-- Claim C6: a cell whose type is not markdown (for instance a code
cell) passes through the cleaner with all of its fields and content
unchanged, even when its source contains the badge substring. -/
theorem claim_C6 (fs : List (String × Json)) (rest : List Json)
    (h : isMarkdownType (lookupField fs "cell_type") = false) :
    clean_notebook_cells (.obj fs :: rest) =
      (clean_notebook_cells rest).map fun rs => .obj fs :: rs :=
  clean_cons_pass fs rest h

theorem claim_C6_witness :
    clean_notebook_cells [.obj [("cell_type", .str "code"),
        ("source", .arr [.str "print(1) # colab-badge.svg\n"]), ("outputs", .arr [])]] =
      some [.obj [("cell_type", .str "code"),
        ("source", .arr [.str "print(1) # colab-badge.svg\n"]), ("outputs", .arr [])]] := by
  rw [claim_C6 [("cell_type", .str "code"),
    ("source", .arr [.str "print(1) # colab-badge.svg\n"]), ("outputs", .arr [])] []
    (by rfl)]
  rfl

/-- Claim C7: the update transformation preserves every top-level field
other than `cells` unmodified — the output document reads back identical
to the input on all other keys. -/
theorem claim_C7 (r b p : String) (data out : Json)
    (h : update_notebook_data r b p data = some out) :
    ∀ k, k ≠ "cells" → Json.get out k = Json.get data k := by
  obtain ⟨fs, rfl⟩ := update_obj r b p data out h
  obtain ⟨cells, hc, rfl⟩ := update_some r b p fs out h
  intro k hk
  simp [Json.get, lookupField_set_other fs "cells" k _ hk]

theorem claim_C7_witness :
    Json.get (.obj [("nbformat", .num 4),
        ("cells", .arr [create_badge_cell "o/r" "main" "nb.ipynb"])]) "nbformat" =
      Json.get (.obj [("nbformat", .num 4)]) "nbformat" :=
  claim_C7 "o/r" "main" "nb.ipynb" (.obj [("nbformat", .num 4)]) _ (by rfl)
    "nbformat" (by decide)

/-- Claim C8: a document lacking a `cells` field — such as the empty
document — is updated without failure: its cells are initialized and the
output cells sequence is exactly the one-element list holding the fresh
badge cell. -/
theorem claim_C8 (r b p : String) (fs : List (String × Json))
    (h : lookupField fs "cells" = none) :
    update_notebook_data r b p (.obj fs) =
      some (.obj (setFieldAux fs "cells" (.arr [create_badge_cell r b p]))) ∧
    Json.get (.obj (setFieldAux fs "cells" (.arr [create_badge_cell r b p]))) "cells" =
      some (.arr [create_badge_cell r b p]) := by
  constructor
  · have hc : cleanedCellsOf fs = some [] := by
      unfold cleanedCellsOf
      rw [h]
    simp [update_notebook_data, hc]
  · simp [Json.get, lookupField_set_self]

theorem claim_C8_witness :
    update_notebook_data "o/r" "main" "nb.ipynb" (.obj []) =
      some (.obj [("cells", .arr [create_badge_cell "o/r" "main" "nb.ipynb"])]) :=
  (claim_C8 "o/r" "main" "nb.ipynb" [] (by rfl)).1

/-- Claim C9: when reading or parsing a file raises, the updater catches
the error, reports a message naming the file path and the underlying
cause, leaves that file (and the whole file system) unchanged, and the
main loop continues with the remaining files. -/
theorem claim_C9 (repo branch : String) (fs : List (String × Except String Json))
    (p e : String) (rest : List String)
    (h : lookupFile fs p = some (.error e)) :
    update_notebook fs p repo branch =
      some (fs, ["Updating badge for " ++ p ++ " -> " ++ branch,
        "Error reading " ++ p ++ ": " ++ e]) ∧
    mainLoop repo branch fs (p :: rest) =
      (mainLoop repo branch fs rest).map
        fun r2 => (r2.1, ("Updating badge for " ++ p ++ " -> " ++ branch) ::
          ("Error reading " ++ p ++ ": " ++ e) :: r2.2) := by
  have h1 : update_notebook fs p repo branch =
      some (fs, ["Updating badge for " ++ p ++ " -> " ++ branch,
        "Error reading " ++ p ++ ": " ++ e]) := by
    simp [update_notebook, h]
  refine ⟨h1, ?_⟩
  simp only [mainLoop, processFile, h, h1]
  cases mainLoop repo branch fs rest with
  | none => rfl
  | some r2 => rfl

theorem claim_C9_witness :
    update_notebook [("bad.ipynb", .error "boom"), ("good.ipynb", .ok (Json.obj []))]
        "bad.ipynb" "o/r" "main" =
      some ([("bad.ipynb", .error "boom"), ("good.ipynb", .ok (Json.obj []))],
        ["Updating badge for " ++ "bad.ipynb" ++ " -> " ++ "main",
         "Error reading " ++ "bad.ipynb" ++ ": " ++ "boom"]) ∧
    mainLoop "o/r" "main"
        [("bad.ipynb", .error "boom"), ("good.ipynb", .ok (Json.obj []))]
        ("bad.ipynb" :: ["good.ipynb"]) =
      (mainLoop "o/r" "main"
          [("bad.ipynb", .error "boom"), ("good.ipynb", .ok (Json.obj []))]
          ["good.ipynb"]).map
        fun r2 => (r2.1, ("Updating badge for " ++ "bad.ipynb" ++ " -> " ++ "main") ::
          ("Error reading " ++ "bad.ipynb" ++ ": " ++ "boom") :: r2.2) :=
  claim_C9 "o/r" "main"
    [("bad.ipynb", .error "boom"), ("good.ipynb", .ok (Json.obj []))]
    "bad.ipynb" "boom" ["good.ipynb"] (by rfl)

/-- Claim C10: a cell with no `cell_type` field passes through the
cleaner completely unchanged; in particular a string-blob source with
badge lines is neither normalized to list form nor filtered. -/
theorem claim_C10 (fs : List (String × Json)) (rest : List Json)
    (h : lookupField fs "cell_type" = none) :
    clean_notebook_cells (.obj fs :: rest) =
      (clean_notebook_cells rest).map fun rs => .obj fs :: rs :=
  clean_cons_pass fs rest (by rw [h]; rfl)

theorem claim_C10_witness :
    clean_notebook_cells [.obj [("source",
        .str "<img src=x/colab-badge.svg>\nkeep\n")]] =
      some [.obj [("source", .str "<img src=x/colab-badge.svg>\nkeep\n")]] := by
  rw [claim_C10 [("source", .str "<img src=x/colab-badge.svg>\nkeep\n")] [] (by rfl)]
  rfl
